import Mathlib

/-!
Shallow embedding of the Destination Format & Path Resolution subsystem of
`src/ffmpeg_utils.cc` (ffmpegfs), together with theorems settling the
specification's claims about it.  Strings are modelled as `List Char`
(`std::string` character data); C return codes as `Int`; fallible C calls
(`stat`, `mkdir`, out-of-bounds accesses) as `Option`-valued models.
-/

/-- The FILETYPE enumeration of the destination containers
(declared in ffmpeg_utils.h, used throughout ffmpeg_utils.cc). -/
inductive FILETYPE where
  | FILETYPE_UNKNOWN
  | FILETYPE_MP3
  | FILETYPE_MP4
  | FILETYPE_WAV
  | FILETYPE_OGG
  | FILETYPE_WEBM
  | FILETYPE_MOV
  | FILETYPE_AIFF
  | FILETYPE_OPUS
  | FILETYPE_PRORES
  deriving DecidableEq, Repr

export FILETYPE (FILETYPE_UNKNOWN FILETYPE_MP3 FILETYPE_MP4 FILETYPE_WAV
  FILETYPE_OGG FILETYPE_WEBM FILETYPE_MOV FILETYPE_AIFF FILETYPE_OPUS
  FILETYPE_PRORES)

/-- The FFmpeg codec identifiers that `get_codecs` assigns. -/
inductive AVCodecID where
  | AV_CODEC_ID_NONE
  | AV_CODEC_ID_MP3
  | AV_CODEC_ID_AAC
  | AV_CODEC_ID_H264
  | AV_CODEC_ID_PCM_S16LE
  | AV_CODEC_ID_PCM_S16BE
  | AV_CODEC_ID_VORBIS
  | AV_CODEC_ID_THEORA
  | AV_CODEC_ID_OPUS
  | AV_CODEC_ID_VP9
  | AV_CODEC_ID_PRORES
  deriving DecidableEq, Repr

export AVCodecID (AV_CODEC_ID_NONE AV_CODEC_ID_MP3 AV_CODEC_ID_AAC
  AV_CODEC_ID_H264 AV_CODEC_ID_PCM_S16LE AV_CODEC_ID_PCM_S16BE
  AV_CODEC_ID_VORBIS AV_CODEC_ID_THEORA AV_CODEC_ID_OPUS AV_CODEC_ID_VP9
  AV_CODEC_ID_PRORES)

/-- The `ffmpegfs_format` record populated by `get_codecs`
(fields in the order they are assigned in the source). -/
structure ffmpegfs_format where
  m_desttype : List Char
  m_audio_codec_id : AVCodecID
  m_video_codec_id : AVCodecID
  m_filetype : FILETYPE
  m_format_name : List Char
  deriving DecidableEq, Repr

/-- A default / zero-initialised format record. -/
def format0 : ffmpegfs_format :=
  ⟨[], AV_CODEC_ID_NONE, AV_CODEC_ID_NONE, FILETYPE_UNKNOWN, []⟩

/-- ASCII lower-casing on character codes, as `strcasecmp` does per byte. -/
def lower_nat (n : Nat) : Nat := if 65 ≤ n ∧ n ≤ 90 then n + 32 else n

/-- Case-insensitive string equality: models `!strcasecmp(a, b)`
(the `std::string` overload at the bottom of ffmpeg_utils.cc). -/
def str_casecmp_eq (a b : List Char) : Bool :=
  a.map (fun c => lower_nat c.toNat) == b.map (fun c => lower_nat c.toNat)

/-- `get_filetype`: the FormatCatalog token lookup, a chain of
case-insensitive comparisons falling through to `FILETYPE_UNKNOWN`. -/
def get_filetype (desttype : List Char) : FILETYPE :=
  if str_casecmp_eq desttype ("mp3".data) then FILETYPE_MP3
  else if str_casecmp_eq desttype ("mp4".data) then FILETYPE_MP4
  else if str_casecmp_eq desttype ("wav".data) then FILETYPE_WAV
  else if str_casecmp_eq desttype ("ogg".data) then FILETYPE_OGG
  else if str_casecmp_eq desttype ("webm".data) then FILETYPE_WEBM
  else if str_casecmp_eq desttype ("mov".data) then FILETYPE_MOV
  else if str_casecmp_eq desttype ("aiff".data) then FILETYPE_AIFF
  else if str_casecmp_eq desttype ("opus".data) then FILETYPE_OPUS
  else if str_casecmp_eq desttype ("prores".data) then FILETYPE_PRORES
  else FILETYPE_UNKNOWN

/-- The loop of `get_filetype_from_list`, guard and body exactly as in the
source: `for (n = 0; n < desttype.size() && filetype != FILETYPE_UNKNOWN; n++)
filetype = get_filetype(desttype[n]);` with `filetype` initialised to
`FILETYPE_UNKNOWN` before the loop.  The guard is re-checked before every
iteration with the updated `filetype`. -/
def gffl_loop : List (List Char) → FILETYPE → FILETYPE
  | [], ft => ft
  | t :: rest, ft =>
      if ft = FILETYPE_UNKNOWN then ft else gffl_loop rest (get_filetype t)

/-- `get_filetype_from_list`: splits the comma-separated list (the source
uses `split(desttypelist, ",")`, a regex split on commas) and runs the loop
above starting from `FILETYPE_UNKNOWN`. -/
def get_filetype_from_list (desttypelist : List Char) : FILETYPE :=
  gffl_loop (desttypelist.splitOn ',') FILETYPE_UNKNOWN

/-- `get_codecs`: switch on `get_filetype desttype`; every recognised case
overwrites all five fields of the format record and leaves `ret` at its
initial `-1`; the `FILETYPE_UNKNOWN` case sets `ret = 0` and does not touch
the record.  Returned as `(ret, format)`. -/
def get_codecs (desttype : List Char) (format : ffmpegfs_format) :
    Int × ffmpegfs_format :=
  match get_filetype desttype with
  | FILETYPE_MP3 =>
      (-1, ⟨desttype, AV_CODEC_ID_MP3, AV_CODEC_ID_NONE, FILETYPE_MP3, "mp3".data⟩)
  | FILETYPE_MP4 =>
      (-1, ⟨desttype, AV_CODEC_ID_AAC, AV_CODEC_ID_H264, FILETYPE_MP4, "mp4".data⟩)
  | FILETYPE_WAV =>
      (-1, ⟨desttype, AV_CODEC_ID_PCM_S16LE, AV_CODEC_ID_NONE, FILETYPE_WAV, "wav".data⟩)
  | FILETYPE_OGG =>
      (-1, ⟨desttype, AV_CODEC_ID_VORBIS, AV_CODEC_ID_THEORA, FILETYPE_OGG, "ogg".data⟩)
  | FILETYPE_WEBM =>
      (-1, ⟨desttype, AV_CODEC_ID_OPUS, AV_CODEC_ID_VP9, FILETYPE_WEBM, "webm".data⟩)
  | FILETYPE_MOV =>
      (-1, ⟨desttype, AV_CODEC_ID_AAC, AV_CODEC_ID_H264, FILETYPE_MOV, "mov".data⟩)
  | FILETYPE_AIFF =>
      (-1, ⟨desttype, AV_CODEC_ID_PCM_S16BE, AV_CODEC_ID_NONE, FILETYPE_AIFF, "aiff".data⟩)
  | FILETYPE_OPUS =>
      (-1, ⟨desttype, AV_CODEC_ID_OPUS, AV_CODEC_ID_NONE, FILETYPE_OPUS, "opus".data⟩)
  | FILETYPE_PRORES =>
      (-1, ⟨desttype, AV_CODEC_ID_PCM_S16LE, AV_CODEC_ID_PRORES, FILETYPE_PRORES, "mov".data⟩)
  | FILETYPE_UNKNOWN => (0, format)

/-- The canonical lookup token of each container type: the string literal
that `get_filetype` compares against for that type. -/
def canonical_token : FILETYPE → List Char
  | FILETYPE_UNKNOWN => []
  | FILETYPE_MP3 => "mp3".data
  | FILETYPE_MP4 => "mp4".data
  | FILETYPE_WAV => "wav".data
  | FILETYPE_OGG => "ogg".data
  | FILETYPE_WEBM => "webm".data
  | FILETYPE_MOV => "mov".data
  | FILETYPE_AIFF => "aiff".data
  | FILETYPE_OPUS => "opus".data
  | FILETYPE_PRORES => "prores".data


/-- Index of the last occurrence of `c` in a character list: models
`std::string::rfind(c)` (`none` plays the role of `std::string::npos`). -/
def rfindIdx (c : Char) : List Char → Option Nat
  | [] => none
  | a :: rest =>
      match rfindIdx c rest with
      | some i => some (i + 1)
      | none => if a = c then some 0 else none

/-- `find_ext`: locate the substring after the last dot.  The C++ function
returns `bool` and writes the extension through an out-parameter (clearing
it when there is none); modelled as `Option (List Char)`. -/
def find_ext (filename : List Char) : Option (List Char) :=
  match rfindIdx '.' filename with
  | none => none
  | some found => some (filename.drop (found + 1))

/-- `replace_ext`: keep everything up to and including the last dot
(`filename.substr(0, found + 1)`) and append the new extension; when no dot
exists, append a dot and then the extension. -/
def replace_ext (filename : List Char) (ext : List Char) : List Char :=
  match rfindIdx '.' filename with
  | none => filename ++ '.' :: ext
  | some found => filename.take (found + 1) ++ ext

/-- `append_sep`: the source reads `path->back()`, which for an empty
`std::string` is an out-of-bounds access (undefined behaviour), modelled as
`none`; otherwise a `'/'` is appended exactly when the last character is
not already `'/'`. -/
def append_sep (path : List Char) : Option (List Char) :=
  match path.getLast? with
  | none => none
  | some c => if c ≠ '/' then some (path ++ ['/']) else some path

/-- Strip all trailing `'/'` characters (shared by the POSIX `basename` /
`dirname` models below). -/
def dropTrailSlashes (p : List Char) : List Char :=
  (p.reverse.dropWhile (fun c => c = '/')).reverse

/-- POSIX `basename` as called through `remove_path` (glibc `<libgen.h>`):
trailing slashes collapse, a path of only slashes yields `"/"`, the empty
string yields `"."`, otherwise the component after the last slash. -/
def basename_posix (p : List Char) : List Char :=
  if p = [] then ['.']
  else
    let q := dropTrailSlashes p
    if q = [] then ['/']
    else
      match rfindIdx '/' q with
      | none => q
      | some i => q.drop (i + 1)

/-- POSIX `dirname` (glibc `<libgen.h>`), used by `is_mount` to obtain the
parent directory: strip trailing slashes, drop the last component, strip
that result's trailing slashes; degenerate cases yield `"."` or `"/"`. -/
def dirname_posix (p : List Char) : List Char :=
  let q := dropTrailSlashes p
  if q = [] then (if p = [] then ['.'] else ['/'])
  else
    match rfindIdx '/' q with
    | none => ['.']
    | some i =>
        let r := dropTrailSlashes (q.take i)
        if r = [] then ['/'] else r

/-- `get_destname`: `destname = filename`, then `remove_path` (basename),
then `replace_ext` with the configured format's `m_format_name`, then plain
string concatenation `params.m_mountpath + destname`.  The globals
`params.m_mountpath` and `params.current_format(filename)->m_format_name`
are supplied as the `mountpath` and `fmt_name` arguments. -/
def get_destname (mountpath : List Char) (filename : List Char)
    (fmt_name : List Char) : List Char :=
  mountpath ++ replace_ext (basename_posix filename) fmt_name


/-- `errno` value for "file exists". -/
def EEXIST : Int := 17

/-- `errno` value for "no such file or directory". -/
def ENOENT : Int := 2

/-- Model of the `mkdir(2)` call used by `mktree`, over a filesystem that is
the set of existing directories (the root `"/"`, represented as the empty
parent, always exists).  Returns `(return value, errno, new filesystem)`:
`(-1, EEXIST)` when the directory exists, `(-1, ENOENT)` when its parent
does not, `(0, 0)` and the directory added on success. -/
def mkdir_model (fs : List (List Char)) (dir : List Char) :
    Int × Int × List (List Char) :=
  if dir ∈ fs then (-1, EEXIST, fs)
  else
    let par := match rfindIdx '/' dir with
               | none => ([] : List Char)
               | some i => dir.take i
    if par = [] ∨ par ∈ fs then (0, 0, dir :: fs)
    else (-1, ENOENT, fs)

/-- The `while (p != nullptr)` loop of `mktree`: `dir` accumulates
`strcat(dir, "/"); strcat(dir, p)`, each component is `mkdir`ed, the loop
breaks with `-1` only when `!status && newstat && errno != EEXIST`, and
otherwise `status = newstat` is carried to the next iteration. -/
def mktree_loop (fs : List (List Char)) (dir : List Char)
    (toks : List (List Char)) (status : Int) : Int × List (List Char) :=
  match toks with
  | [] => (status, fs)
  | p :: rest =>
      let dir2 := dir ++ '/' :: p
      let res := mkdir_model fs dir2
      if status = 0 ∧ res.1 ≠ 0 ∧ res.2.1 ≠ EEXIST then (-1, res.2.2)
      else mktree_loop res.2.2 dir2 rest res.1

/-- `mktree(filename, mode)`: tokenises the path with `strtok(path, "/")`
(which skips empty components) and runs the loop above with `status = 0`.
The `mode` argument only affects permission bits, which the
directory-set filesystem model does not represent. -/
def mktree (fs : List (List Char)) (filename : List Char) (mode : Nat) :
    Int × List (List Char) :=
  let _ := mode
  mktree_loop fs [] ((filename.splitOn '/').filter (fun t => !t.isEmpty)) 0

/-- The fields of `struct stat` that `is_mount` inspects. -/
structure StatInfo where
  st_mode : Nat
  st_dev : Nat
  st_ino : Nat
  deriving DecidableEq, Repr

/-- The directory bit of `st_mode` (`S_IFDIR`). -/
def S_IFDIR : Nat := 16384

/-- `is_mount(filename)`: take `dirname` of the filename, `stat` both; a
failed `stat` or a non-directory filename throws `-1` (caught and returned);
different device ids, or equal device and inode (root case), yield `1`;
otherwise `0`.  The `stat(2)` call is supplied as an oracle `st` mapping a
path to `none` (stat returns `-1`) or its stat data. -/
def is_mount (st : List Char → Option StatInfo) (filename : List Char) : Int :=
  match st filename with
  | none => -1
  | some file_stat =>
      if file_stat.st_mode &&& S_IFDIR = 0 then -1
      else
        match st (dirname_posix filename) with
        | none => -1
        | some parent_stat =>
            if file_stat.st_dev ≠ parent_stat.st_dev ∨
               (file_stat.st_dev = parent_stat.st_dev ∧
                file_stat.st_ino = parent_stat.st_ino)
            then 1 else 0

/-- A concrete stat oracle for exercising `is_mount`: `"/"` is the root
directory (its own parent), `"/mnt"` is a directory on another device (a
mount point), `"/home"` is an ordinary directory on the root device, and
`"/home/file.txt"` is a regular file (mode `0o100644`) inside it; every
other path fails to stat. -/
def statC4 : List Char → Option StatInfo := fun p =>
  if p = ("/".data) then some ⟨16877, 1, 1⟩
  else if p = ("/mnt".data) then some ⟨16877, 2, 10⟩
  else if p = ("/home".data) then some ⟨16877, 1, 20⟩
  else if p = ("/home/file.txt".data) then some ⟨33188, 1, 30⟩
  else none


theorem rfindIdx_eq_none_of_not_mem {c : Char} :
    ∀ {l : List Char}, c ∉ l → rfindIdx c l = none
  | [], _ => rfl
  | a :: rest, h => by
      have h1 : c ∉ rest := fun hm => h (List.mem_cons_of_mem a hm)
      have h2 : a ≠ c := fun he => h (he ▸ List.mem_cons_self a rest)
      simp [rfindIdx, rfindIdx_eq_none_of_not_mem h1, h2]

theorem not_mem_of_rfindIdx_eq_none {c : Char} :
    ∀ {l : List Char}, rfindIdx c l = none → c ∉ l := by
  intro l
  induction l with
  | nil => intro _ hm; exact List.not_mem_nil c hm
  | cons a rest ih =>
      intro h
      simp only [rfindIdx] at h
      cases hr : rfindIdx c rest with
      | some i => rw [hr] at h; exact Option.noConfusion h
      | none =>
          rw [hr] at h
          by_cases hac : a = c
          · rw [if_pos hac] at h; exact Option.noConfusion h
          · intro hm
            rcases List.mem_cons.1 hm with h1 | h2
            · exact hac h1.symm
            · exact ih hr h2

theorem rfindIdx_some_split {c : Char} :
    ∀ {l : List Char} {i : Nat}, rfindIdx c l = some i →
      ∃ a b, l = a ++ c :: b ∧ a.length = i ∧ c ∉ b := by
  intro l
  induction l with
  | nil => intro i h; exact Option.noConfusion h
  | cons x rest ih =>
      intro i h
      simp only [rfindIdx] at h
      cases hr : rfindIdx c rest with
      | some j =>
          rw [hr] at h
          obtain ⟨a, b, hl, hlen, hb⟩ := ih hr
          refine ⟨x :: a, b, ?_, ?_, hb⟩
          · rw [hl]; rfl
          · have hji : j + 1 = i := Option.some.inj h
            simp [hlen, ← hji]
      | none =>
          rw [hr] at h
          by_cases hxc : x = c
          · rw [if_pos hxc] at h
            have hi : i = 0 := (Option.some.inj h).symm
            refine ⟨[], rest, ?_, ?_, not_mem_of_rfindIdx_eq_none hr⟩
            · simp [hxc]
            · simp [hi]
          · rw [if_neg hxc] at h; exact Option.noConfusion h

theorem rfindIdx_append_self {c : Char} {e : List Char} (he : c ∉ e) :
    ∀ r : List Char, rfindIdx c (r ++ c :: e) = some r.length := by
  intro r
  induction r with
  | nil =>
      simp only [List.nil_append, rfindIdx, rfindIdx_eq_none_of_not_mem he]
      simp
  | cons a r ih =>
      simp only [List.cons_append, rfindIdx, List.append_eq]
      rw [ih]
      simp

theorem take_len_succ (a b : List Char) (x : Char) :
    (a ++ x :: b).take (a.length + 1) = a ++ [x] := by
  induction a with
  | nil => simp
  | cons y a ih => simp [ih]

theorem drop_len_succ (a b : List Char) (x : Char) :
    (a ++ x :: b).drop (a.length + 1) = b := by
  induction a with
  | nil => simp
  | cons y a ih => simp [ih]

theorem replace_ext_of_split (a b e : List Char) (hb : '.' ∉ b) :
    replace_ext (a ++ '.' :: b) e = a ++ '.' :: e := by
  simp only [replace_ext, rfindIdx_append_self hb a, take_len_succ]
  simp

theorem find_ext_of_split (a b : List Char) (hb : '.' ∉ b) :
    find_ext (a ++ '.' :: b) = some b := by
  simp only [find_ext, rfindIdx_append_self hb a, drop_len_succ]

theorem replace_ext_shape (f e : List Char) :
    ∃ r, replace_ext f e = r ++ '.' :: e := by
  cases h : rfindIdx '.' f with
  | none => exact ⟨f, by simp only [replace_ext, h]⟩
  | some i =>
      obtain ⟨a, b, hl, hlen, hb⟩ := rfindIdx_some_split h
      exact ⟨a, by rw [hl]; exact replace_ext_of_split a b e hb⟩

/-- C1: the spec claims `get_filetype_from_list` returns the filetype of the
first token whose lookup is not Unknown, so that resolving "xyz,mp3,mp4"
yields the MP3 type.  In the code the loop guard
`n < desttype.size() && filetype != FILETYPE_UNKNOWN` is checked with
`filetype` still at its initial `FILETYPE_UNKNOWN`, so the body never runs:
the function returns `FILETYPE_UNKNOWN` on every input, contradicting the
claim and the source's own comment "Find first matching entry". -/
theorem c1_resolver_always_unknown :
    (∀ l : List Char, get_filetype_from_list l = FILETYPE_UNKNOWN) ∧
    get_filetype_from_list ("xyz,mp3,mp4".data) = FILETYPE_UNKNOWN := by
  constructor
  · intro l
    unfold get_filetype_from_list
    cases h : l.splitOn ',' with
    | nil => rfl
    | cons t rest => simp [gffl_loop]
  · decide

/-- C2: the spec claims `mktree` treats "already exists" as success, so two
consecutive calls on the same path both report success.  Evaluating the
code: the first call on an empty filesystem creates `/a`, `/a/b`, `/a/b/c`
and returns 0, but the second call returns -1, because although the EEXIST
branch avoids the abort, `status = newstat` still carries the last mkdir's
-1 into the return value. -/
theorem c2_mktree_second_call_fails :
    (mktree [] ("/a/b/c".data) 493).1 = 0 ∧
    (("/a/b/c".data) ∈ (mktree [] ("/a/b/c".data) 493).2) ∧
    (mktree (mktree [] ("/a/b/c".data) 493).2 ("/a/b/c".data) 493).1 = -1 := by
  decide

/-- C3 counterexample: with mount root "/mnt" (no trailing separator) the
code produces "/mnttrack.mp3", not the claimed "/mnt/track.mp3": no
separator is inserted between mount root and filename. -/
theorem c3_destname_counterexample :
    get_destname ("/mnt".data) ("/src/music/track.flac".data) ("mp3".data)
      ≠ ("/mnt/track.mp3".data) := by decide

/-- C3 (amended): `get_destname` strips the source directory, replaces the
extension with the container name, and prepends the mount root by plain
string concatenation with no separator inserted, so exactly one separator
appears iff the supplied mount root itself ends in one: "/mnt/" yields
"/mnt/track.mp3" while "/mnt" yields "/mnttrack.mp3". -/
theorem c3_destname_concatenation :
    get_destname ("/mnt/".data) ("/src/music/track.flac".data) ("mp3".data)
      = ("/mnt/track.mp3".data) ∧
    get_destname ("/mnt".data) ("/src/music/track.flac".data) ("mp3".data)
      = ("/mnttrack.mp3".data) := by decide

/-- C4 counterexample: for the regular file "/home/file.txt" inside the
ordinary directory "/home" (stat oracle `statC4`), `is_mount` does not
report 0 ("not a mount point") as the claim states: it reports the
indeterminate -1, because non-directories take the error path. -/
theorem c4_regular_file_counterexample :
    is_mount statC4 ("/home/file.txt".data) ≠ 0 ∧
    is_mount statC4 ("/home/file.txt".data) = -1 := by decide

/-- C4 (amended): `is_mount` returns 1 when the path's device id differs
from its parent's or when device and inode both coincide (root case);
returns 0 only for a directory on the same device as its parent with a
different inode; and returns the indeterminate -1 both on a stat error and
for any non-directory path (such as a regular file inside an ordinary
directory), which is rejected before the device comparison. -/
theorem c4_is_mount_spec (st : List Char → Option StatInfo) (f : List Char) :
    (st f = none → is_mount st f = -1) ∧
    (∀ s, st f = some s → s.st_mode &&& S_IFDIR = 0 → is_mount st f = -1) ∧
    (∀ s, st f = some s → s.st_mode &&& S_IFDIR ≠ 0 →
      st (dirname_posix f) = none → is_mount st f = -1) ∧
    (∀ s q, st f = some s → s.st_mode &&& S_IFDIR ≠ 0 →
      st (dirname_posix f) = some q →
      (s.st_dev ≠ q.st_dev ∨ (s.st_dev = q.st_dev ∧ s.st_ino = q.st_ino)) →
      is_mount st f = 1) ∧
    (∀ s q, st f = some s → s.st_mode &&& S_IFDIR ≠ 0 →
      st (dirname_posix f) = some q →
      s.st_dev = q.st_dev → s.st_ino ≠ q.st_ino → is_mount st f = 0) := by
  refine ⟨?_, ?_, ?_, ?_, ?_⟩
  · intro h; simp [is_mount, h]
  · intro s h1 h2; simp [is_mount, h1, h2]
  · intro s h1 h2 h3; simp [is_mount, h1, h2, h3]
  · intro s q h1 h2 h3 h4; simp [is_mount, h1, h2, h3, h4]
  · intro s q h1 h2 h3 h4 h5; simp [is_mount, h1, h2, h3, h4, h5]

/-- C4 witness: the five branches of `c4_is_mount_spec` evaluated on the
concrete stat oracle `statC4`. -/
theorem c4_is_mount_witness :
    is_mount statC4 ("/mnt".data) = 1 ∧
    is_mount statC4 ("/".data) = 1 ∧
    is_mount statC4 ("/home".data) = 0 ∧
    is_mount statC4 ("/home/file.txt".data) = -1 ∧
    is_mount statC4 ("/missing".data) = -1 := by
  refine ⟨?_, ?_, ?_, ?_, ?_⟩
  · exact (c4_is_mount_spec statC4 ("/mnt".data)).2.2.2.1
      ⟨16877, 2, 10⟩ ⟨16877, 1, 1⟩ (by decide) (by decide) (by decide) (by decide)
  · exact (c4_is_mount_spec statC4 ("/".data)).2.2.2.1
      ⟨16877, 1, 1⟩ ⟨16877, 1, 1⟩ (by decide) (by decide) (by decide) (by decide)
  · exact (c4_is_mount_spec statC4 ("/home".data)).2.2.2.2
      ⟨16877, 1, 20⟩ ⟨16877, 1, 1⟩ (by decide) (by decide) (by decide) (by decide) (by decide)
  · exact (c4_is_mount_spec statC4 ("/home/file.txt".data)).2.1
      ⟨33188, 1, 30⟩ (by decide) (by decide)
  · exact (c4_is_mount_spec statC4 ("/missing".data)).1 (by decide)

/-- C5 counterexample: with the dotted extension "b.c" a second replacement
cuts inside the first result's extension, so double replacement differs
from single replacement: `replace_ext(replace_ext("a","b.c"),"b.c")`
is "a.b.b.c" while one application gives "a.b.c". -/
theorem c5_replace_ext_counterexample :
    replace_ext (replace_ext ("a".data) ("b.c".data)) ("b.c".data)
      ≠ replace_ext ("a".data) ("b.c".data) := by decide

/-- C5 (amended): extension replacement is idempotent for every target
extension that contains no dot (which all catalog container names satisfy):
`replace_ext (replace_ext f e) e = replace_ext f e` whenever `'.' ∉ e`. -/
theorem c5_replace_ext_idem (f e : List Char) (he : '.' ∉ e) :
    replace_ext (replace_ext f e) e = replace_ext f e := by
  obtain ⟨r, hr⟩ := replace_ext_shape f e
  rw [hr]
  exact replace_ext_of_split r e e he

/-- C5 witness: idempotence instantiated at f = "track.flac", e = "mp3". -/
theorem c5_replace_ext_idem_witness :
    ('.' ∉ ("mp3".data)) ∧
    replace_ext (replace_ext ("track.flac".data) ("mp3".data)) ("mp3".data)
      = replace_ext ("track.flac".data) ("mp3".data) :=
  ⟨by decide, c5_replace_ext_idem ("track.flac".data) ("mp3".data) (by decide)⟩

/-- C6 counterexample: on the empty string `append_sep` does not return a
value: the source evaluates `path->back()` on an empty `std::string`, an
out-of-bounds access modelled as `none`, so the function is not total on
every path string as claimed. -/
theorem c6_append_sep_counterexample : append_sep [] = none := rfl

/-- C6 (amended): `append_sep` is total on every non-empty path string,
returning the path with a '/' appended exactly when its last character is
not already '/'; the empty string is outside its domain because the
`back()` call on an empty string is undefined behaviour. -/
theorem c6_append_sep_total_nonempty (p : List Char) (h : p ≠ []) :
    ∃ q, append_sep p = some q ∧ q.getLastD ' ' = '/' ∧
      ((p.getLastD ' ' = '/' ∧ q = p) ∨
       (p.getLastD ' ' ≠ '/' ∧ q = p ++ ['/'])) := by
  cases hl : p.getLast? with
  | none => exact absurd (List.getLast?_eq_none_iff.1 hl) h
  | some c =>
      by_cases hc : c = '/'
      · refine ⟨p, ?_, ?_, Or.inl ⟨?_, rfl⟩⟩
        · simp [append_sep, hl, hc]
        · simp [hl, hc]
        · simp [hl, hc]
      · refine ⟨p ++ ['/'], ?_, ?_, Or.inr ⟨?_, rfl⟩⟩
        · simp [append_sep, hl, hc]
        · simp [List.getLastD_eq_getLast?, List.getLast?_concat]
        · simp [hl, hc]

/-- C6 witness: `append_sep` on the non-empty path "abc". -/
theorem c6_append_sep_witness :
    (("abc".data) ≠ ([] : List Char)) ∧
    (∃ q, append_sep ("abc".data) = some q ∧ q.getLastD ' ' = '/' ∧
      ((("abc".data).getLastD ' ' = '/' ∧ q = "abc".data) ∨
       (("abc".data).getLastD ' ' ≠ '/' ∧ q = ("abc".data) ++ ['/']))) :=
  ⟨by decide, c6_append_sep_total_nonempty ("abc".data) (by decide)⟩

/-- C7: for every container type other than Unknown, looking up its
canonical token with `get_filetype` yields exactly that type, and
`get_codecs` on that token populates a spec with that filetype, a non-empty
container name and a non-None audio codec; moreover the "prores" token
produces container name "mov", which differs from the lookup token. -/
theorem c7_catalog_totality :
    ∀ ft : FILETYPE, ft ≠ FILETYPE_UNKNOWN →
      (get_filetype (canonical_token ft) = ft ∧
       (get_codecs (canonical_token ft) format0).2.m_filetype = ft ∧
       (get_codecs (canonical_token ft) format0).2.m_format_name ≠ [] ∧
       (get_codecs (canonical_token ft) format0).2.m_audio_codec_id
         ≠ AV_CODEC_ID_NONE) ∧
      (get_codecs (canonical_token FILETYPE_PRORES) format0).2.m_format_name
        = "mov".data ∧
      canonical_token FILETYPE_PRORES ≠ "mov".data := by
  intro ft h
  refine ⟨?_, by decide, by decide⟩
  cases ft
  case FILETYPE_UNKNOWN => exact absurd rfl h
  all_goals decide

/-- C7 witness: the catalog totality statement instantiated at the ProRes
container type. -/
theorem c7_catalog_totality_witness :
    (FILETYPE_PRORES ≠ FILETYPE_UNKNOWN) ∧
    ((get_filetype (canonical_token FILETYPE_PRORES) = FILETYPE_PRORES ∧
      (get_codecs (canonical_token FILETYPE_PRORES) format0).2.m_filetype
        = FILETYPE_PRORES ∧
      (get_codecs (canonical_token FILETYPE_PRORES) format0).2.m_format_name
        ≠ [] ∧
      (get_codecs (canonical_token FILETYPE_PRORES) format0).2.m_audio_codec_id
        ≠ AV_CODEC_ID_NONE) ∧
     (get_codecs (canonical_token FILETYPE_PRORES) format0).2.m_format_name
       = "mov".data ∧
     canonical_token FILETYPE_PRORES ≠ "mov".data) :=
  ⟨by decide, c7_catalog_totality FILETYPE_PRORES (by decide)⟩

/-- C8: `replace_ext` is total and deterministic: when the filename has a
dot, the part up to and including the last dot is kept and the new
extension is appended after it; when it has no dot, a dot plus the new
extension is appended, so `replace_ext "archive" "mp3" = "archive.mp3"`. -/
theorem c8_replace_ext_total :
    ∀ f e : List Char,
      (('.' ∈ f) → ∃ a b, f = a ++ '.' :: b ∧ '.' ∉ b ∧
        replace_ext f e = a ++ '.' :: e) ∧
      ('.' ∉ f → replace_ext f e = f ++ '.' :: e) ∧
      replace_ext ("archive".data) ("mp3".data) = "archive.mp3".data := by
  intro f e
  refine ⟨?_, ?_, by decide⟩
  · intro hm
    cases h : rfindIdx '.' f with
    | none => exact absurd hm (not_mem_of_rfindIdx_eq_none h)
    | some i =>
        obtain ⟨a, b, hl, hlen, hb⟩ := rfindIdx_some_split h
        exact ⟨a, b, hl, hb, by rw [hl]; exact replace_ext_of_split a b e hb⟩
  · intro hm
    simp only [replace_ext, rfindIdx_eq_none_of_not_mem hm]

/-- C8 witness: the with-extension branch at "track.flac" / "mp3". -/
theorem c8_replace_ext_total_witness :
    ('.' ∈ ("track.flac".data)) ∧
    (∃ a b, ("track.flac".data) = a ++ '.' :: b ∧ '.' ∉ b ∧
      replace_ext ("track.flac".data) ("mp3".data) = a ++ '.' :: ("mp3".data)) :=
  ⟨by decide, (c8_replace_ext_total ("track.flac".data) ("mp3".data)).1 (by decide)⟩

/-- C9: `get_codecs` returns 0 exactly when the destination type token is
unrecognized (in which case the format record is left untouched), and
returns -1 for every recognized destination type, for which it nonetheless
populates the record (its filetype field matches the lookup). -/
theorem c9_get_codecs_ret :
    ∀ (s : List Char) (f : ffmpegfs_format),
      ((get_codecs s f).1
        = if get_filetype s = FILETYPE_UNKNOWN then 0 else -1) ∧
      (get_filetype s = FILETYPE_UNKNOWN → (get_codecs s f).2 = f) ∧
      (get_filetype s ≠ FILETYPE_UNKNOWN →
        (get_codecs s f).2.m_filetype = get_filetype s) := by
  intro s f
  cases h : get_filetype s <;> simp [get_codecs, h]

/-- C9 witness: the unrecognized branch at token "xyz" and the recognized
branch at token "mp3". -/
theorem c9_get_codecs_ret_witness :
    (get_filetype ("xyz".data) = FILETYPE_UNKNOWN ∧
     (get_codecs ("xyz".data) format0).2 = format0) ∧
    (get_filetype ("mp3".data) ≠ FILETYPE_UNKNOWN ∧
     (get_codecs ("mp3".data) format0).2.m_filetype
       = get_filetype ("mp3".data)) :=
  ⟨⟨by decide, (c9_get_codecs_ret ("xyz".data) format0).2.1 (by decide)⟩,
   ⟨by decide, (c9_get_codecs_ret ("mp3".data) format0).2.2 (by decide)⟩⟩

/-- C10: for every filename f and every non-empty dot-free extension e,
`find_ext` applied to `replace_ext f e` reports an extension and extracts
exactly e: the replace/find extension pair round-trips. -/
theorem c10_find_replace_roundtrip (f e : List Char) (_h1 : e ≠ [])
    (h2 : '.' ∉ e) : find_ext (replace_ext f e) = some e := by
  obtain ⟨r, hr⟩ := replace_ext_shape f e
  rw [hr]
  exact find_ext_of_split r e h2

/-- C10 witness: the round trip at f = "file.wav", e = "ogg". -/
theorem c10_find_replace_roundtrip_witness :
    (("ogg".data) ≠ ([] : List Char)) ∧ ('.' ∉ ("ogg".data)) ∧
    find_ext (replace_ext ("file.wav".data) ("ogg".data)) = some ("ogg".data) :=
  ⟨by decide, by decide,
   c10_find_replace_roundtrip ("file.wav".data) ("ogg".data) (by decide) (by decide)⟩
